import Mathlib

/-!
Shallow embedding of the boundary and normalization layer of
`pymupdf4llm-c/src/lib.rs`: the JSON value model, the typed block schema
with its serde-style deserializers, the extraction gateway functions
`to_json`, `extract_page_json`, `to_json_collect`, and the artifact
discovery helper `gather_json_files`.

Modelling conventions:
- JSON numbers are rationals (the code performs no arithmetic on them;
  `as_f64` succeeds on every JSON number, so the representational claims
  are unaffected).
- The native engine, the filesystem and the text-level JSON parser are
  oracles packaged in environment structures; each gateway function also
  returns a trace counting native invocations (and, for the page path,
  invocations of the native `free`).
- Fallible Rust functions returning `Result<_, E>` become `Except`.
-/

namespace Pdf

/-- JSON values, as produced by the serde_json parser.  Objects are
association lists; the parser collapses duplicate keys, but the model
keeps lists general and the deserializers handle duplicates the way the
serde derive does (a duplicate known field is an error). -/
inductive Json where
  | null
  | bool (b : Bool)
  | num (q : ℚ)
  | str (s : String)
  | arr (items : List Json)
  | obj (fields : List (String × Json))

/-- The error enumeration `PdfError` from lib.rs.  Payloads of foreign
types (`NulError`, `io::Error`, `Utf8Error`) are dropped; `CError` keeps
its numeric code, `Json` keeps the schema-error message, `MissingInput`
keeps the offending path. -/
inductive PdfError where
  | Nul
  | CError (code : Int)
  | Io
  | Utf8
  | Json (msg : String)
  | NullResult
  | MissingInput (path : String)
  | PageNumberOverflow
deriving DecidableEq, Repr

/-- The canonical bounding box record `BBox`. -/
structure BBox where
  x0 : ℚ
  y0 : ℚ
  x1 : ℚ
  y1 : ℚ
deriving DecidableEq, Repr

/-- Struct `TableCell` from lib.rs. -/
structure TableCell where
  bbox : BBox
  text : String
deriving DecidableEq, Repr

/-- Struct `TableRow` from lib.rs. -/
structure TableRow where
  bbox : BBox
  cells : List TableCell
deriving DecidableEq, Repr

/-- Struct `Block` from lib.rs, fields in declaration order.  The Rust field
`r#type` maps JSON key "type". -/
structure Block where
  type : String
  text : String
  bbox : BBox
  font_size : ℚ
  font_weight : Option String
  page_number : Int
  length : ℕ
  lines : Option ℕ
  confidence : Option ℚ
  row_count : Option ℕ
  col_count : Option ℕ
  cell_count : Option ℕ
  rows : Option (List TableRow)
deriving DecidableEq, Repr

/-- Method `serde_json::Value::as_f64`: every JSON number converts, nothing
else does. -/
def asF64 : Json → Option ℚ
  | .num q => some q
  | _ => none

/-- Helper `Option::ok_or_else`, specialised to the error strings used by
`deserialize_bbox`. -/
def toExcept (o : Option α) (msg : String) : Except String α :=
  match o with
  | some a => .ok a
  | none => .error msg

/-- Method `serde_json::Map::get` on the association-list object model: the
first binding for the key. -/
def lookupField (fields : List (String × Json)) (k : String) : Option Json :=
  (fields.find? (fun kv => kv.1 == k)).map Prod.snd

/-- The custom deserializer `deserialize_bbox` from lib.rs: accepts a
4-element numeric array or an object with numeric keys x0, y0, x1, y1;
every other value is rejected with the literal error messages of the
source.  An array of any other length falls through to the catch-all
arm, exactly as the pattern guard of the source `arr.len() == 4` does. -/
def deserialize_bbox : Json → Except String BBox
  | .arr [v0, v1, v2, v3] => do
      let x0 ← toExcept (asF64 v0) "bbox[0] not a number"
      let y0 ← toExcept (asF64 v1) "bbox[1] not a number"
      let x1 ← toExcept (asF64 v2) "bbox[2] not a number"
      let y1 ← toExcept (asF64 v3) "bbox[3] not a number"
      pure { x0 := x0, y0 := y0, x1 := x1, y1 := y1 }
  | .obj fields => do
      let x0 ← toExcept ((lookupField fields "x0").bind asF64) "missing or invalid x0"
      let y0 ← toExcept ((lookupField fields "y0").bind asF64) "missing or invalid y0"
      let x1 ← toExcept ((lookupField fields "x1").bind asF64) "missing or invalid x1"
      let y1 ← toExcept ((lookupField fields "y1").bind asF64) "missing or invalid y1"
      pure { x0 := x0, y0 := y0, x1 := x1, y1 := y1 }
  | _ => .error "bbox must be array [x0,y0,x1,y1] or object \x7bx0,y0,x1,y1\x7d"

/-- serde deserialization of a `String` field value. -/
def deserializeString : Json → Except String String
  | .str s => .ok s
  | _ => .error "invalid type: expected string"

/-- serde deserialization of an `f64` field value: any JSON number. -/
def deserializeF64 : Json → Except String ℚ
  | .num q => .ok q
  | _ => .error "invalid type: expected f64"

/-- serde deserialization of an `i32` field value: an integer in the
signed 32-bit range. -/
def deserializeI32 : Json → Except String Int
  | .num q =>
      if q.den = 1 ∧ -2147483648 ≤ q.num ∧ q.num ≤ 2147483647 then .ok q.num
      else .error "invalid value: expected i32"
  | _ => .error "invalid type: expected i32"

/-- serde deserialization of a `u32` field value. -/
def deserializeU32 : Json → Except String ℕ
  | .num q =>
      if q.den = 1 ∧ 0 ≤ q.num ∧ q.num ≤ 4294967295 then .ok q.num.toNat
      else .error "invalid value: expected u32"
  | _ => .error "invalid type: expected u32"

/-- serde deserialization of a `usize` (64-bit) field value. -/
def deserializeUsize : Json → Except String ℕ
  | .num q =>
      if q.den = 1 ∧ 0 ≤ q.num ∧ q.num ≤ 18446744073709551615 then .ok q.num.toNat
      else .error "invalid value: expected usize"
  | _ => .error "invalid type: expected usize"

/-- serde deserialization of `Option<T>`: null is None, anything else is
Some of the inner deserialization. -/
def deserializeOption (f : Json → Except String α) : Json → Except String (Option α)
  | .null => .ok none
  | v => (f v).map some

/-- Effectful map over a list in `Except`, aborting at the first error,
mirroring both serde sequence deserialization and the artifact loop in
`to_json_collect`. -/
def exceptMapM (f : α → Except ε β) : List α → Except ε (List β)
  | [] => .ok []
  | x :: xs => do
      let y ← f x
      let ys ← exceptMapM f xs
      pure (y :: ys)

/-- A required struct field in serde map form: absent is a missing-field
error. -/
def reqField (fields : List (String × Json)) (k : String)
    (f : Json → Except String α) : Except String α :=
  match lookupField fields k with
  | some v => f v
  | none => .error ("missing field " ++ k)

/-- A defaulted struct field in serde map form (the `#[serde(default)]`
attribute): absent yields the default, present values go through the
field deserializer (so a present null reaching a non-Option field is an
error). -/
def optField (fields : List (String × Json)) (k : String)
    (f : Json → Except String α) (d : α) : Except String α :=
  match lookupField fields k with
  | some v => f v
  | none => .ok d

/-- The serde derive rejects a payload that repeats a known field.  The
derive reports the first defect in input order; this embedding checks
duplicates up front and then fields in declaration order — the set of
rejected payloads and all accepted values coincide, only the choice of
message among several defects differs. -/
def hasDupKnown (fields : List (String × Json)) (keys : List String) : Bool :=
  keys.any (fun k => decide (2 ≤ (fields.map Prod.fst).count k))

/-- A required positional element in serde sequence form. -/
def seqReq (f : Json → Except String α) :
    List Json → Except String (α × List Json)
  | [] => .error "invalid length"
  | v :: rest => (f v).map (fun a => (a, rest))

/-- A defaulted positional element in serde sequence form: an exhausted
sequence yields the default. -/
def seqOpt (f : Json → Except String α) (d : α) :
    List Json → Except String (α × List Json)
  | [] => .ok (d, [])
  | v :: rest => (f v).map (fun a => (a, rest))

/-- Derived `BBox` deserialization (used for the `bbox` fields of
`TableCell` and `TableRow`, which do not use the custom
`deserialize_bbox`): serde accepts the map form with required numeric
keys, or the positional sequence form. -/
def deserializeBBoxDerived : Json → Except String BBox
  | .obj fields =>
      if hasDupKnown fields ["x0", "y0", "x1", "y1"] then .error "duplicate field"
      else do
        let x0 ← reqField fields "x0" deserializeF64
        let y0 ← reqField fields "y0" deserializeF64
        let x1 ← reqField fields "x1" deserializeF64
        let y1 ← reqField fields "y1" deserializeF64
        pure { x0 := x0, y0 := y0, x1 := x1, y1 := y1 }
  | .arr [v0, v1, v2, v3] => do
      let x0 ← deserializeF64 v0
      let y0 ← deserializeF64 v1
      let x1 ← deserializeF64 v2
      let y1 ← deserializeF64 v3
      pure { x0 := x0, y0 := y0, x1 := x1, y1 := y1 }
  | .arr _ => .error "invalid length"
  | _ => .error "invalid type: expected struct BBox"

/-- Derived `TableCell` deserialization. -/
def deserializeTableCell : Json → Except String TableCell
  | .obj fields =>
      if hasDupKnown fields ["bbox", "text"] then .error "duplicate field"
      else do
        let bb ← reqField fields "bbox" deserializeBBoxDerived
        let tx ← reqField fields "text" deserializeString
        pure { bbox := bb, text := tx }
  | .arr [v0, v1] => do
      let bb ← deserializeBBoxDerived v0
      let tx ← deserializeString v1
      pure { bbox := bb, text := tx }
  | .arr _ => .error "invalid length"
  | _ => .error "invalid type: expected struct TableCell"

/-- serde deserialization of `Vec<TableCell>`. -/
def deserializeCells : Json → Except String (List TableCell)
  | .arr xs => exceptMapM deserializeTableCell xs
  | _ => .error "invalid type: expected a sequence"

/-- Derived `TableRow` deserialization. -/
def deserializeTableRow : Json → Except String TableRow
  | .obj fields =>
      if hasDupKnown fields ["bbox", "cells"] then .error "duplicate field"
      else do
        let bb ← reqField fields "bbox" deserializeBBoxDerived
        let cs ← reqField fields "cells" deserializeCells
        pure { bbox := bb, cells := cs }
  | .arr [v0, v1] => do
      let bb ← deserializeBBoxDerived v0
      let cs ← deserializeCells v1
      pure { bbox := bb, cells := cs }
  | .arr _ => .error "invalid length"
  | _ => .error "invalid type: expected struct TableRow"

/-- serde deserialization of `Vec<TableRow>` (the `rows` field). -/
def deserializeRows : Json → Except String (List TableRow)
  | .arr xs => exceptMapM deserializeTableRow xs
  | _ => .error "invalid type: expected a sequence"

/-- The known field keys of `Block`, in declaration order. -/
def blockKeys : List String :=
  ["type", "text", "bbox", "font_size", "font_weight", "page_number",
   "length", "lines", "confidence", "row_count", "col_count",
   "cell_count", "rows"]

/-- Deserialization of `Block` in serde sequence form: positional fields in
declaration order; defaulted fields take their defaults once the
sequence is exhausted, required fields past the end are a length
error. -/
def blockFromSeq (xs : List Json) : Except String Block := do
  let (ty, r1) ← seqReq deserializeString xs
  let (tx, r2) ← seqReq deserializeString r1
  let (bb, r3) ← seqReq deserialize_bbox r2
  let (fsz, r4) ← seqOpt deserializeF64 0 r3
  let (fw, r5) ← seqOpt (deserializeOption deserializeString) none r4
  let (pn, r6) ← seqReq deserializeI32 r5
  let (ln, r7) ← seqReq deserializeUsize r6
  let (li, r8) ← seqOpt (deserializeOption deserializeU32) none r7
  let (cf, r9) ← seqOpt (deserializeOption deserializeF64) none r8
  let (rc, r10) ← seqOpt (deserializeOption deserializeU32) none r9
  let (cc, r11) ← seqOpt (deserializeOption deserializeU32) none r10
  let (ce, r12) ← seqOpt (deserializeOption deserializeU32) none r11
  let (rw, r13) ← seqOpt (deserializeOption deserializeRows) none r12
  match r13 with
  | [] => pure ⟨ty, tx, bb, fsz, fw, pn, ln, li, cf, rc, cc, ce, rw⟩
  | _ :: _ => .error "trailing elements"

/-- Deserialization of `Block` as derived by serde on the struct in
lib.rs: required fields `type`, `text`, `bbox` (through the custom
`deserialize_bbox`), `page_number`, `length`; all remaining fields carry
`#[serde(default)]`, so an absent field takes the default (`0.0` for
`font_size`, `None` for the Option fields) while a present value goes
through the deserializer of the field type (null is None for Option fields,
an error for `font_size`). -/
def deserializeBlock : Json → Except String Block
  | .obj fields =>
      if hasDupKnown fields blockKeys then .error "duplicate field"
      else do
        let ty ← reqField fields "type" deserializeString
        let tx ← reqField fields "text" deserializeString
        let bb ← reqField fields "bbox" deserialize_bbox
        let fsz ← optField fields "font_size" deserializeF64 0
        let fw ← optField fields "font_weight" (deserializeOption deserializeString) none
        let pn ← reqField fields "page_number" deserializeI32
        let ln ← reqField fields "length" deserializeUsize
        let li ← optField fields "lines" (deserializeOption deserializeU32) none
        let cf ← optField fields "confidence" (deserializeOption deserializeF64) none
        let rc ← optField fields "row_count" (deserializeOption deserializeU32) none
        let cc ← optField fields "col_count" (deserializeOption deserializeU32) none
        let ce ← optField fields "cell_count" (deserializeOption deserializeU32) none
        let rw ← optField fields "rows" (deserializeOption deserializeRows) none
        pure ⟨ty, tx, bb, fsz, fw, pn, ln, li, cf, rc, cc, ce, rw⟩
  | .arr xs => blockFromSeq xs
  | _ => .error "invalid type: expected struct Block"

/-- serde deserialization of `Vec<Block>`, the payload type of one
artifact in `to_json_collect`. -/
def deserializeBlocks : Json → Except String (List Block)
  | .arr xs => exceptMapM deserializeBlock xs
  | _ => .error "invalid type: expected a sequence"

/-! ### String and path helpers

Paths are modelled as strings with `/` separators (read_dir entry names
contain no separator).  The helpers below follow the semantics of the
std `Path` methods the source calls, on normalized paths. -/

/-- Byte-wise (equivalently code-point-wise, since UTF-8 byte order
agrees with scalar-value order) lexicographic comparison, the order
`Vec<PathBuf>::sort` uses on paths sharing a directory. -/
def charListLe : List Char → List Char → Bool
  | [], _ => true
  | _ :: _, [] => false
  | a :: as, b :: bs =>
      if a.toNat < b.toNat then true
      else if b.toNat < a.toNat then false
      else charListLe as bs

/-- Lexicographic order on strings, as a Bool. -/
def strLe (a b : String) : Bool := charListLe a.toList b.toList

/-- Lexicographic order on strings, as a Prop (the relation passed to
the sort). -/
def pathLe (a b : String) : Prop := strLe a b = true

instance : DecidableRel pathLe := fun a b =>
  inferInstanceAs (Decidable (strLe a b = true))

/-- Method `str::starts_with`. -/
def strStartsWith (s pre : String) : Bool := List.isPrefixOf pre.toList s.toList

/-- Method `str::ends_with`. -/
def strEndsWith (s suf : String) : Bool := List.isSuffixOf suf.toList s.toList

/-- Constructor `CString::new` fails exactly when the byte sequence holds an
interior NUL. -/
def hasNulByte (s : String) : Bool := s.toList.any (fun c => c = Char.ofNat 0)

/-- Function `path_to_cstring` from lib.rs: `to_string_lossy` (identity on the
string model) followed by `CString::new`; an embedded NUL byte is a
`PdfError::Nul`.  The marshaled bytes are represented by the string
itself. -/
def path_to_cstring (path : String) : Except PdfError String :=
  if hasNulByte path then .error .Nul else .ok path

/-- Split a character list at every separator. -/
def splitOnSlash : List Char → List (List Char)
  | [] => [[]]
  | c :: rest =>
      let r := splitOnSlash rest
      if c = '/' then [] :: r
      else
        match r with
        | [] => [[c]]
        | g :: gs => (c :: g) :: gs

/-- The normal components of a path: empty and current-directory
segments are dropped, as `Path::components` normalization does. -/
def normalComponents (path : String) : List String :=
  ((splitOnSlash path.toList).map (fun g => String.mk g)).filter
    (fun c => c ≠ "" && c ≠ ".")

/-- Method `Path::file_name`: the last normal component, none when the path
ends in a parent-directory segment or has no component. -/
def rustFileName (path : String) : Option String :=
  match (normalComponents path).getLast? with
  | none => none
  | some c => if c = ".." then none else some c

/-- Split a character list around its last dot: everything before and
everything after. -/
def lastDotSplit : List Char → Option (List Char × List Char)
  | [] => none
  | c :: rest =>
      match lastDotSplit rest with
      | some (pre, suf) => some (c :: pre, suf)
      | none => if c = '.' then some ([], rest) else none

/-- Method `Path::file_stem`: the file name up to its last dot; a leading-dot
name with no further dot is its own stem. -/
def rustFileStem (path : String) : Option String :=
  (rustFileName path).map (fun name =>
    match lastDotSplit name.toList with
    | none => name
    | some (pre, _) => if pre = [] then name else String.mk pre)

/-- Method `Path::extension`: the part of the file name after its last dot,
none when there is no dot or only a leading one. -/
def rustExtension (path : String) : Option String :=
  (rustFileName path).bind (fun name =>
    match lastDotSplit name.toList with
    | none => none
    | some (pre, suf) => if pre = [] then none else some (String.mk suf))

/-- Join a list of components with separators. -/
def intercalateSlash : List String → String
  | [] => ""
  | [a] => a
  | a :: rest => a ++ "/" ++ intercalateSlash rest

/-- Method `Path::parent`: the path minus its last component. -/
def rustParent (path : String) : Option String :=
  let abs := strStartsWith path "/"
  match normalComponents path with
  | [] => none
  | comps =>
      let ini := comps.dropLast
      if ini = [] then some (if abs then "/" else "")
      else some ((if abs then "/" else "") ++ intercalateSlash ini)

/-- Method `Path::join`. -/
def joinPath (a b : String) : String :=
  if strStartsWith b "/" then b
  else if a = "" then b
  else if strEndsWith a "/" then a ++ b
  else a ++ "/" ++ b

/-- Function `default_output_dir` from lib.rs: sibling directory named after the
input stem with the `_json` suffix. -/
def default_output_dir (pdf_path : String) : String :=
  let stem := (rustFileStem pdf_path).getD "output"
  let parent := (rustParent pdf_path).getD "."
  joinPath parent (stem ++ "_json")

/-- Function `resolve_output_dir` from lib.rs. -/
def resolve_output_dir (pdf_path : String) (output_dir : Option String) : String :=
  output_dir.getD (default_output_dir pdf_path)

/-- The filter predicate of `gather_json_files`: extension `json` and a
file name starting with `page_`. -/
def isJsonPageArtifact (path : String) : Bool :=
  (((rustExtension path).map (fun e => e == "json")).getD false)
    && (((rustFileName path).map (fun n => strStartsWith n "page_")).getD false)

/-- Function `gather_json_files` from lib.rs, with the directory listing supplied
by the read_dir oracle: each entry path is the directory joined with the
entry name; entries are filtered on extension and name, then sorted
(`Vec::sort` on `PathBuf`, lexicographic here since all entries share
the directory). -/
def gather_json_files (dir : String) (names : List String) : List String :=
  List.insertionSort pathLe
    ((names.map (fun n => joinPath dir n)).filter isJsonPageArtifact)

/-! ### Extraction gateway -/

/-- Oracle environment for the single-page path: filesystem existence
and the buffer the native `page_to_json_string` returns for this call
(`none` is the null sentinel; a returned buffer is its byte content up
to the NUL terminator is applied by the caller model). -/
structure PageEnv where
  fsExists : String → Bool
  nativeResult : Option (List ℕ)

/-- Trace of native activity during one `extract_page_json` call. -/
structure PageTrace where
  nativeCalls : ℕ
  freeCalls : ℕ
deriving DecidableEq, Repr

/-- Minimal UTF-8 validation and decoding, the semantics of
`str::from_utf8` on the bytes of the returned C string: rejects stray
continuation bytes, overlong forms, surrogates and values past
U+10FFFF. -/
def utf8Decode : List ℕ → Option (List Char)
  | [] => some []
  | b :: rest =>
      if b < 128 then
        (utf8Decode rest).map (fun cs => Char.ofNat b :: cs)
      else if b < 194 then none
      else if b < 224 then
        match rest with
        | b1 :: rest' =>
            if 128 ≤ b1 ∧ b1 < 192 then
              (utf8Decode rest').map
                (fun cs => Char.ofNat ((b - 192) * 64 + (b1 - 128)) :: cs)
            else none
        | [] => none
      else if b < 240 then
        match rest with
        | b1 :: b2 :: rest' =>
            if (128 ≤ b1 ∧ b1 < 192) ∧ (128 ≤ b2 ∧ b2 < 192)
                ∧ (b ≠ 224 ∨ 160 ≤ b1) ∧ (b ≠ 237 ∨ b1 < 160) then
              (utf8Decode rest').map
                (fun cs =>
                  Char.ofNat ((b - 224) * 4096 + (b1 - 128) * 64 + (b2 - 128)) :: cs)
            else none
        | _ => none
      else if b < 245 then
        match rest with
        | b1 :: b2 :: b3 :: rest' =>
            if (128 ≤ b1 ∧ b1 < 192) ∧ (128 ≤ b2 ∧ b2 < 192) ∧ (128 ≤ b3 ∧ b3 < 192)
                ∧ (b ≠ 240 ∨ 144 ≤ b1) ∧ (b ≠ 244 ∨ b1 < 144) then
              (utf8Decode rest').map
                (fun cs =>
                  Char.ofNat ((b - 240) * 262144 + (b1 - 128) * 4096
                    + (b2 - 128) * 64 + (b3 - 128)) :: cs)
            else none
        | _ => none
      else none

/-- The body of the unsafe block in `extract_page_json`, entered after
the native call returned a non-null buffer: `CStr::from_ptr` reads the
bytes up to the terminator, `to_str()?` validates UTF-8 — and on
failure the question-mark operator returns from the enclosing function
before the `free` call, so the release count stays 0; only the success
path, after copying into an owned string, frees the buffer, once. -/
def consumeNativeBuffer (buf : List ℕ) : Except PdfError String × PageTrace :=
  match utf8Decode (buf.takeWhile (fun b => b ≠ 0)) with
  | none => (.error .Utf8, ⟨1, 0⟩)
  | some cs => (.ok (String.mk cs), ⟨1, 1⟩)

/-- Function `extract_page_json` from lib.rs.  Checks, in source order: input
existence, the signed 32-bit bound on the page number, NUL-freedom of
the marshaled path; then invokes the native entry point.  A null result
is `NullResult` with no `free`; a buffer is consumed by the body of the
unsafe block above. -/
def extract_page_json (env : PageEnv) (pdf_path : String) (page_number : ℕ) :
    Except PdfError String × PageTrace :=
  if env.fsExists pdf_path = false then
    (.error (.MissingInput pdf_path), ⟨0, 0⟩)
  else if page_number > 2147483647 then
    (.error .PageNumberOverflow, ⟨0, 0⟩)
  else
    match path_to_cstring pdf_path with
    | .error e => (.error e, ⟨0, 0⟩)
    | .ok _ =>
        match env.nativeResult with
        | none => (.error .NullResult, ⟨1, 0⟩)
        | some buf => consumeNativeBuffer buf

/-- Oracle environment for the whole-document path: filesystem
existence, the outcome of `create_dir_all`, the code the native
`pdf_to_json` returns, and the read_dir listing of the output directory
(`none` is an I/O failure). -/
structure DocEnv where
  fsExists : String → Bool
  createDirOk : Bool
  nativeCode : Int
  listing : Option (List String)

/-- Function `convert_document` from lib.rs: marshal both paths, invoke the
native whole-document entry point (counted in the second component), a
nonzero code is `CError` with the code verbatim, then gather the
produced artifacts. -/
def convert_document (env : DocEnv) (pdf_path target : String) :
    Except PdfError (List String) × ℕ :=
  match path_to_cstring pdf_path with
  | .error e => (.error e, 0)
  | .ok _ =>
      match path_to_cstring target with
      | .error e => (.error e, 0)
      | .ok _ =>
          if env.nativeCode ≠ 0 then (.error (.CError env.nativeCode), 1)
          else
            match env.listing with
            | none => (.error .Io, 1)
            | some names => (.ok (gather_json_files target names), 1)

/-- Function `to_json` from lib.rs: existence precondition first, then output
directory resolution and creation, then the native conversion.  The
second component counts `pdf_to_json` invocations. -/
def to_json (env : DocEnv) (pdf_path : String) (output_dir : Option String) :
    Except PdfError (List String) × ℕ :=
  if env.fsExists pdf_path = false then
    (.error (.MissingInput pdf_path), 0)
  else
    let target := resolve_output_dir pdf_path output_dir
    if env.createDirOk then convert_document env pdf_path target
    else (.error .Io, 0)

/-- Oracle environment for `to_json_collect`: the document environment
plus the contents `fs::read_to_string` yields per artifact path (`none`
is an I/O failure) and the serde_json text-level parse of those
contents (the parser itself is an external library, modelled as an
oracle; the typed deserialization below it is the model in this
file). -/
structure CollectEnv where
  doc : DocEnv
  fileRead : String → Option String
  parseJson : String → Except String Json

/-- Reading and deserializing one artifact in `to_json_collect`:
`fs::read_to_string` then `serde_json::from_str::<Vec<Block>>`, whose
failures both land in `PdfError` (`Io`, `Json`). -/
def readPageBlocks (env : CollectEnv) (path : String) :
    Except PdfError (List Block) :=
  match env.fileRead path with
  | none => .error .Io
  | some contents =>
      match env.parseJson contents >>= deserializeBlocks with
      | .error m => .error (.Json m)
      | .ok bs => .ok bs

/-- Function `to_json_collect` from lib.rs: run `to_json`, then read and
deserialize each returned artifact in order, aborting at the first
failing artifact. -/
def to_json_collect (env : CollectEnv) (pdf_path : String)
    (output_dir : Option String) :
    Except PdfError (List (List Block)) × ℕ :=
  match to_json env.doc pdf_path output_dir with
  | (.error e, n) => (.error e, n)
  | (.ok files, n) =>
      match exceptMapM (readPageBlocks env) files with
      | .error e => (.error e, n)
      | .ok pages => (.ok pages, n)

/-! ### Shared lemmas about `Except` and the field combinators -/

theorem except_ok_bind {ε α β : Type} (a : α) (f : α → Except ε β) :
    (Except.ok a >>= f) = f a := rfl

theorem except_error_bind {ε α β : Type} (e : ε) (f : α → Except ε β) :
    ((Except.error e : Except ε α) >>= f) = Except.error e := rfl

theorem except_bind_ok {ε α β : Type} {x : Except ε α} {f : α → Except ε β} {b : β} :
    (x >>= f) = Except.ok b ↔ ∃ a, x = Except.ok a ∧ f a = Except.ok b := by
  cases x <;> simp [except_ok_bind, except_error_bind]

theorem except_pure_ok {ε α : Type} {a b : α} :
    (pure a : Except ε α) = Except.ok b ↔ a = b := by
  constructor
  · intro h
    exact (Except.ok.injEq a b).mp h
  · intro h
    exact congrArg Except.ok h

theorem toExcept_ok {α : Type} {o : Option α} {m : String} {a : α} :
    toExcept o m = Except.ok a ↔ o = some a := by
  cases o <;> simp [toExcept]

theorem toExcept_none {α : Type} {m : String} :
    toExcept (none : Option α) m = Except.error m := rfl

theorem reqField_ok {α : Type} {fields : List (String × Json)} {k : String}
    {f : Json → Except String α} {a : α} :
    reqField fields k f = Except.ok a ↔ ∃ v, lookupField fields k = some v ∧ f v = Except.ok a := by
  unfold reqField
  cases h : lookupField fields k <;> simp

theorem optField_ok {α : Type} {fields : List (String × Json)} {k : String}
    {f : Json → Except String α} {d a : α} :
    optField fields k f d = Except.ok a ↔
      (lookupField fields k = none ∧ d = a)
      ∨ ∃ v, lookupField fields k = some v ∧ f v = Except.ok a := by
  unfold optField
  cases h : lookupField fields k <;> simp

/-! ### C2 and C4: the bounding-box normalizer -/

/-- C2: every bounding-box value outside the two accepted shapes — an
object missing a required key or holding a non-numeric one, a 3-or-5
element array, or a 4-array with a non-numeric coordinate — is rejected
with the structured message naming the offending coordinate or the
shape defect; a success never substitutes a default, its coordinates
come verbatim from the input (the embedding is a total function, so no
panic is possible). -/
theorem deserialize_bbox_schema_failures :
    (∀ xs : List Json, xs.length = 3 ∨ xs.length = 5 →
        deserialize_bbox (Json.arr xs) =
          Except.error "bbox must be array [x0,y0,x1,y1] or object \x7bx0,y0,x1,y1\x7d")
  ∧ (∀ v0 v1 v2 v3 : Json,
        (asF64 v0 = none ∨ asF64 v1 = none ∨ asF64 v2 = none ∨ asF64 v3 = none) →
        (asF64 v0 = none ∧ deserialize_bbox (Json.arr [v0, v1, v2, v3]) =
            Except.error "bbox[0] not a number")
      ∨ (asF64 v1 = none ∧ deserialize_bbox (Json.arr [v0, v1, v2, v3]) =
            Except.error "bbox[1] not a number")
      ∨ (asF64 v2 = none ∧ deserialize_bbox (Json.arr [v0, v1, v2, v3]) =
            Except.error "bbox[2] not a number")
      ∨ (asF64 v3 = none ∧ deserialize_bbox (Json.arr [v0, v1, v2, v3]) =
            Except.error "bbox[3] not a number"))
  ∧ (∀ fields : List (String × Json),
        ((lookupField fields "x0").bind asF64 = none
          ∨ (lookupField fields "y0").bind asF64 = none
          ∨ (lookupField fields "x1").bind asF64 = none
          ∨ (lookupField fields "y1").bind asF64 = none) →
        ((lookupField fields "x0").bind asF64 = none ∧
            deserialize_bbox (Json.obj fields) = Except.error "missing or invalid x0")
      ∨ ((lookupField fields "y0").bind asF64 = none ∧
            deserialize_bbox (Json.obj fields) = Except.error "missing or invalid y0")
      ∨ ((lookupField fields "x1").bind asF64 = none ∧
            deserialize_bbox (Json.obj fields) = Except.error "missing or invalid x1")
      ∨ ((lookupField fields "y1").bind asF64 = none ∧
            deserialize_bbox (Json.obj fields) = Except.error "missing or invalid y1"))
  ∧ (∀ (v : Json) (bb : BBox), deserialize_bbox v = Except.ok bb →
        (∃ v0 v1 v2 v3, v = Json.arr [v0, v1, v2, v3]
            ∧ asF64 v0 = some bb.x0 ∧ asF64 v1 = some bb.y0
            ∧ asF64 v2 = some bb.x1 ∧ asF64 v3 = some bb.y1)
      ∨ (∃ fields, v = Json.obj fields
            ∧ (lookupField fields "x0").bind asF64 = some bb.x0
            ∧ (lookupField fields "y0").bind asF64 = some bb.y0
            ∧ (lookupField fields "x1").bind asF64 = some bb.x1
            ∧ (lookupField fields "y1").bind asF64 = some bb.y1)) := by
  refine ⟨?_, ?_, ?_, ?_⟩
  · intro xs h
    rcases h with h | h
    · obtain ⟨a, b, c, rfl⟩ := List.length_eq_three.mp h
      rfl
    · rcases xs with _ | ⟨a, xs⟩
      · simp at h
      rcases xs with _ | ⟨b, xs⟩
      · simp at h
      rcases xs with _ | ⟨c, xs⟩
      · simp at h
      rcases xs with _ | ⟨d, xs⟩
      · simp at h
      rcases xs with _ | ⟨e, xs⟩
      · simp at h
      rcases xs with _ | ⟨f, xs⟩
      · rfl
      · simp at h
  · intro v0 v1 v2 v3 h
    cases h0 : asF64 v0 with
    | none =>
        exact Or.inl ⟨rfl, by simp [deserialize_bbox, h0, toExcept_none, except_error_bind]⟩
    | some q0 =>
      cases h1 : asF64 v1 with
      | none =>
          refine Or.inr (Or.inl ⟨rfl, ?_⟩)
          simp [deserialize_bbox, h0, h1, toExcept, except_ok_bind, except_error_bind]
      | some q1 =>
        cases h2 : asF64 v2 with
        | none =>
            refine Or.inr (Or.inr (Or.inl ⟨rfl, ?_⟩))
            simp [deserialize_bbox, h0, h1, h2, toExcept, except_ok_bind, except_error_bind]
        | some q2 =>
          cases h3 : asF64 v3 with
          | none =>
              refine Or.inr (Or.inr (Or.inr ⟨rfl, ?_⟩))
              simp [deserialize_bbox, h0, h1, h2, h3, toExcept, except_ok_bind,
                except_error_bind]
          | some q3 => simp_all
  · intro fields h
    cases h0 : (lookupField fields "x0").bind asF64 with
    | none =>
        exact Or.inl ⟨rfl, by simp [deserialize_bbox, h0, toExcept_none, except_error_bind]⟩
    | some q0 =>
      cases h1 : (lookupField fields "y0").bind asF64 with
      | none =>
          refine Or.inr (Or.inl ⟨rfl, ?_⟩)
          simp [deserialize_bbox, h0, h1, toExcept, except_ok_bind, except_error_bind]
      | some q1 =>
        cases h2 : (lookupField fields "x1").bind asF64 with
        | none =>
            refine Or.inr (Or.inr (Or.inl ⟨rfl, ?_⟩))
            simp [deserialize_bbox, h0, h1, h2, toExcept, except_ok_bind, except_error_bind]
        | some q2 =>
          cases h3 : (lookupField fields "y1").bind asF64 with
          | none =>
              refine Or.inr (Or.inr (Or.inr ⟨rfl, ?_⟩))
              simp [deserialize_bbox, h0, h1, h2, h3, toExcept, except_ok_bind,
                except_error_bind]
          | some q3 => simp_all
  · intro v bb h
    match v with
    | .null | .bool _ | .num _ | .str _ => simp [deserialize_bbox] at h
    | .arr xs =>
      match xs with
      | [] | [_] | [_, _] | [_, _, _] => simp [deserialize_bbox] at h
      | _ :: _ :: _ :: _ :: _ :: _ => simp [deserialize_bbox] at h
      | [v0, v1, v2, v3] =>
        left
        simp only [deserialize_bbox, except_bind_ok, toExcept_ok, except_pure_ok] at h
        obtain ⟨a, ha, b, hb, c, hc, d, hd, hbb⟩ := h
        subst hbb
        exact ⟨v0, v1, v2, v3, rfl, ha, hb, hc, hd⟩
    | .obj fields =>
      right
      simp only [deserialize_bbox, except_bind_ok, toExcept_ok, except_pure_ok] at h
      obtain ⟨a, ha, b, hb, c, hc, d, hd, hbb⟩ := h
      subst hbb
      exact ⟨fields, rfl, ha, hb, hc, hd⟩

/-- C2 witness: a 3-element array is rejected with the shape message. -/
theorem deserialize_bbox_schema_failures_witness :
    deserialize_bbox (Json.arr [Json.null, Json.null, Json.null]) =
      Except.error "bbox must be array [x0,y0,x1,y1] or object \x7bx0,y0,x1,y1\x7d" :=
  deserialize_bbox_schema_failures.1 [Json.null, Json.null, Json.null] (Or.inl rfl)

/-- C4: a 4-element numeric array and any object whose four required
keys carry the same numeric values normalize to the identical canonical
record, each coordinate passed through verbatim — no ordering
hypothesis is needed, so malformed orderings (x0 greater than x1) pass
through unchanged. -/
theorem deserialize_bbox_array_object_equiv :
    ∀ (a b c d : ℚ) (fields : List (String × Json)),
      (lookupField fields "x0").bind asF64 = some a →
      (lookupField fields "y0").bind asF64 = some b →
      (lookupField fields "x1").bind asF64 = some c →
      (lookupField fields "y1").bind asF64 = some d →
      deserialize_bbox (Json.arr [Json.num a, Json.num b, Json.num c, Json.num d])
          = Except.ok ⟨a, b, c, d⟩
        ∧ deserialize_bbox (Json.obj fields) = Except.ok ⟨a, b, c, d⟩ := by
  intro a b c d fields h0 h1 h2 h3
  constructor
  · rfl
  · simp [deserialize_bbox, h0, h1, h2, h3, toExcept, except_ok_bind]

/-- C4 witness: the two shapes at the concrete values 5, 2, 1, 0, a
deliberately inverted ordering (x0 greater than x1, y0 greater than
y1), both yield the identical record with untouched coordinates. -/
theorem deserialize_bbox_array_object_equiv_witness :
    deserialize_bbox (Json.arr [Json.num 5, Json.num 2, Json.num 1, Json.num 0])
        = Except.ok ⟨5, 2, 1, 0⟩
      ∧ deserialize_bbox (Json.obj
          [("x0", Json.num 5), ("y0", Json.num 2), ("x1", Json.num 1), ("y1", Json.num 0)])
        = Except.ok ⟨5, 2, 1, 0⟩ :=
  deserialize_bbox_array_object_equiv 5 2 1 0
    [("x0", Json.num 5), ("y0", Json.num 2), ("x1", Json.num 1), ("y1", Json.num 0)]
    rfl rfl rfl rfl

/-! ### C3 and C10: block field semantics -/

/-- Inversion of a successful map-form `Block` deserialization: no known
field is duplicated, every required field is present and deserializes,
every defaulted field resolves through `optField`, and the record is
assembled from exactly these values. -/
theorem deserializeBlock_obj_ok_inv {fields : List (String × Json)} {b : Block}
    (h : deserializeBlock (Json.obj fields) = Except.ok b) :
    hasDupKnown fields blockKeys = false
    ∧ ∃ ty tx bb fsz fw pn ln li cf rc cc ce rw,
        reqField fields "type" deserializeString = Except.ok ty
      ∧ reqField fields "text" deserializeString = Except.ok tx
      ∧ reqField fields "bbox" deserialize_bbox = Except.ok bb
      ∧ optField fields "font_size" deserializeF64 0 = Except.ok fsz
      ∧ optField fields "font_weight" (deserializeOption deserializeString) none
          = Except.ok fw
      ∧ reqField fields "page_number" deserializeI32 = Except.ok pn
      ∧ reqField fields "length" deserializeUsize = Except.ok ln
      ∧ optField fields "lines" (deserializeOption deserializeU32) none = Except.ok li
      ∧ optField fields "confidence" (deserializeOption deserializeF64) none
          = Except.ok cf
      ∧ optField fields "row_count" (deserializeOption deserializeU32) none
          = Except.ok rc
      ∧ optField fields "col_count" (deserializeOption deserializeU32) none
          = Except.ok cc
      ∧ optField fields "cell_count" (deserializeOption deserializeU32) none
          = Except.ok ce
      ∧ optField fields "rows" (deserializeOption deserializeRows) none = Except.ok rw
      ∧ b = ⟨ty, tx, bb, fsz, fw, pn, ln, li, cf, rc, cc, ce, rw⟩ := by
  cases hdup : hasDupKnown fields blockKeys with
  | true => simp [deserializeBlock, hdup] at h
  | false =>
    refine ⟨rfl, ?_⟩
    simp only [deserializeBlock, hdup, Bool.false_eq_true, if_false,
      except_bind_ok, except_pure_ok] at h
    obtain ⟨ty, hty, tx, htx, bb, hbb, fsz, hfsz, fw, hfw, pn, hpn, ln, hln,
      li, hli, cf, hcf, rc, hrc, cc, hcc, ce, hce, rw, hrw, hb⟩ := h
    exact ⟨ty, tx, bb, fsz, fw, pn, ln, li, cf, rc, cc, ce, rw,
      hty, htx, hbb, hfsz, hfw, hpn, hln, hli, hcf, hrc, hcc, hce, hrw, hb.symm⟩

/-- A defaulted Option field resolves to the unset state whenever it is
present as JSON null or absent. -/
theorem optField_null_or_absent_none {α : Type} {g : Json → Except String α}
    {fields : List (String × Json)} {k : String} {a : Option α}
    (h : optField fields k (deserializeOption g) none = Except.ok a)
    (hc : lookupField fields k = some Json.null ∨ lookupField fields k = none) :
    a = none := by
  unfold optField at h
  rcases hc with hc | hc <;> rw [hc] at h
  · simpa [deserializeOption] using h.symm
  · simpa using h.symm

/-- The payload fields required by `Block`. -/
def requiredBlockKeys : List String := ["type", "text", "bbox", "page_number", "length"]

/-- A payload carrying exactly the five required fields. -/
def minimalBlockPayload : List (String × Json) :=
  [("type", Json.str "t"), ("text", Json.str "x"),
   ("bbox", Json.arr [Json.num 0, Json.num 0, Json.num 1, Json.num 1]),
   ("page_number", Json.num 1), ("length", Json.num 2)]

/-- The block the minimal payload deserializes to: every optional field
unset, font size defaulted to zero. -/
def minimalBlock : Block :=
  ⟨"t", "x", ⟨0, 0, 1, 1⟩, 0, none, 1, 2, none, none, none, none, none, none⟩

/-- The minimal payload with `font_size` present as JSON null. -/
def fontSizeNullPayload : List (String × Json) :=
  minimalBlockPayload ++ [("font_size", Json.null)]

/-- The minimal payload with every Option-typed optional field present
as JSON null. -/
def optNullPayload : List (String × Json) :=
  minimalBlockPayload ++
    [("font_weight", Json.null), ("lines", Json.null), ("confidence", Json.null),
     ("row_count", Json.null), ("col_count", Json.null), ("cell_count", Json.null),
     ("rows", Json.null)]

/-- C3 counterexample: the claim includes `fontSize` among the optional
fields for which a present-but-null value is treated as unset, but the
code deserializes a present `font_size` through the plain `f64`
deserializer (the serde default applies only to an absent key), so the
same payload that succeeds without the key fails once the key is
present as null. -/
theorem block_font_size_null_cex :
    deserializeBlock (Json.obj fontSizeNullPayload) =
        Except.error "invalid type: expected f64"
      ∧ deserializeBlock (Json.obj minimalBlockPayload) = Except.ok minimalBlock :=
  ⟨rfl, rfl⟩

/-- C3 (amended): a present-but-null value for the Option-typed optional
fields (fontWeight, confidence, rowCount, colCount, cellCount, rows, and
also lines) is treated as unset rather than an error, an absent optional
field deserializes to the explicit unset state, and an absent fontSize
defaults to zero — but a present-but-null fontSize is rejected as a type
error. -/
theorem block_optional_field_semantics :
    (∀ (fields : List (String × Json)) (b : Block),
        deserializeBlock (Json.obj fields) = Except.ok b →
        ((lookupField fields "font_weight" = some Json.null
            ∨ lookupField fields "font_weight" = none) → b.font_weight = none)
      ∧ ((lookupField fields "confidence" = some Json.null
            ∨ lookupField fields "confidence" = none) → b.confidence = none)
      ∧ ((lookupField fields "row_count" = some Json.null
            ∨ lookupField fields "row_count" = none) → b.row_count = none)
      ∧ ((lookupField fields "col_count" = some Json.null
            ∨ lookupField fields "col_count" = none) → b.col_count = none)
      ∧ ((lookupField fields "cell_count" = some Json.null
            ∨ lookupField fields "cell_count" = none) → b.cell_count = none)
      ∧ ((lookupField fields "rows" = some Json.null
            ∨ lookupField fields "rows" = none) → b.rows = none)
      ∧ ((lookupField fields "lines" = some Json.null
            ∨ lookupField fields "lines" = none) → b.lines = none)
      ∧ (lookupField fields "font_size" = none → b.font_size = 0))
  ∧ (∀ fields : List (String × Json),
        lookupField fields "font_size" = some Json.null →
        ∃ m, deserializeBlock (Json.obj fields) = Except.error m)
  ∧ deserializeBlock (Json.obj optNullPayload) = Except.ok minimalBlock := by
  refine ⟨?_, ?_, rfl⟩
  · intro fields b h
    obtain ⟨-, ty, tx, bb, fsz, fw, pn, ln, li, cf, rc, cc, ce, rw,
      -, -, -, hfsz, hfw, -, -, hli, hcf, hrc, hcc, hce, hrw, hb⟩ :=
      deserializeBlock_obj_ok_inv h
    subst hb
    refine ⟨fun hc => optField_null_or_absent_none hfw hc,
      fun hc => optField_null_or_absent_none hcf hc,
      fun hc => optField_null_or_absent_none hrc hc,
      fun hc => optField_null_or_absent_none hcc hc,
      fun hc => optField_null_or_absent_none hce hc,
      fun hc => optField_null_or_absent_none hrw hc,
      fun hc => optField_null_or_absent_none hli hc,
      fun hc => ?_⟩
    unfold optField at hfsz
    rw [hc] at hfsz
    simpa using hfsz.symm
  · intro fields hnull
    cases hres : deserializeBlock (Json.obj fields) with
    | error m => exact ⟨m, rfl⟩
    | ok b =>
      exfalso
      obtain ⟨-, ty, tx, bb, fsz, fw, pn, ln, li, cf, rc, cc, ce, rw,
        -, -, -, hfsz, -⟩ := deserializeBlock_obj_ok_inv hres
      unfold optField at hfsz
      rw [hnull] at hfsz
      simp [deserializeF64] at hfsz

/-- C3 witness: a payload with `font_size` present as null is rejected. -/
theorem block_optional_field_semantics_witness :
    ∃ m, deserializeBlock (Json.obj fontSizeNullPayload) = Except.error m :=
  block_optional_field_semantics.2.1 fontSizeNullPayload rfl

/-- C10: the fields type, text, bbox, page_number and length are
mandatory — a payload missing any of them is rejected with a schema
error — and they suffice: the payload carrying exactly the five
deserializes, with every optional field unset. -/
theorem block_required_fields :
    (∀ (fields : List (String × Json)) (k : String),
        k ∈ requiredBlockKeys → lookupField fields k = none →
        ∃ m, deserializeBlock (Json.obj fields) = Except.error m)
  ∧ deserializeBlock (Json.obj minimalBlockPayload) = Except.ok minimalBlock := by
  refine ⟨?_, rfl⟩
  intro fields k hk hnone
  cases hres : deserializeBlock (Json.obj fields) with
  | error m => exact ⟨m, rfl⟩
  | ok b =>
    exfalso
    obtain ⟨-, ty, tx, bb, fsz, fw, pn, ln, li, cf, rc, cc, ce, rw,
      hty, htx, hbb, -, -, hpn, hln, -⟩ := deserializeBlock_obj_ok_inv hres
    simp only [requiredBlockKeys, List.mem_cons, List.mem_singleton] at hk
    rcases hk with rfl | rfl | rfl | rfl | (rfl | h)
    · rw [reqField, hnone] at hty
      exact Except.noConfusion hty
    · rw [reqField, hnone] at htx
      exact Except.noConfusion htx
    · rw [reqField, hnone] at hbb
      exact Except.noConfusion hbb
    · rw [reqField, hnone] at hpn
      exact Except.noConfusion hpn
    · rw [reqField, hnone] at hln
      exact Except.noConfusion hln
    · exact List.not_mem_nil k h

/-- C10 witness: a payload holding only the type field is rejected for
its missing length. -/
theorem block_required_fields_witness :
    ∃ m, deserializeBlock (Json.obj [("type", Json.str "t")]) = Except.error m :=
  block_required_fields.1 [("type", Json.str "t")] "length" (by decide) rfl

/-! ### C1, C5, C6, C7: the gateway boundary -/

/-- C1 (code bug): with a stubbed native entry point returning a valid
UTF-8 buffer the call frees it exactly once, but with a buffer whose
bytes fail text decoding the early return of the source on `to_str()?` skips
the `free` call entirely — the release count is 0, not 1, on the decode
failure exit path, so the buffer leaks. -/
theorem extract_page_free_on_paths :
    extract_page_json ⟨fun _ => true, some [104, 105]⟩ "doc.pdf" 0
        = (Except.ok "hi", ⟨1, 1⟩)
      ∧ extract_page_json ⟨fun _ => true, some [255]⟩ "doc.pdf" 0
        = (Except.error PdfError.Utf8, ⟨1, 0⟩) :=
  ⟨rfl, rfl⟩

/-- C5: a nonexistent input path fails both the whole-document and the
single-page extraction with `MissingInput` carrying that path, before
any native invocation (both native-call counters stay zero). -/
theorem missing_input_before_native :
    ∀ (denv : DocEnv) (penv : PageEnv) (path : String) (out : Option String) (pn : ℕ),
      denv.fsExists path = false → penv.fsExists path = false →
      to_json denv path out = (Except.error (PdfError.MissingInput path), 0)
    ∧ extract_page_json penv path pn
        = (Except.error (PdfError.MissingInput path), ⟨0, 0⟩) := by
  intro denv penv path out pn hd hp
  constructor
  · simp [to_json, hd]
  · simp [extract_page_json, hp]

/-- C5 witness: concrete environments whose filesystem lacks the
path. -/
theorem missing_input_before_native_witness :
    to_json ⟨fun _ => false, true, 0, some []⟩ "absent.pdf" none
        = (Except.error (PdfError.MissingInput "absent.pdf"), 0)
      ∧ extract_page_json ⟨fun _ => false, none⟩ "absent.pdf" 3
        = (Except.error (PdfError.MissingInput "absent.pdf"), ⟨0, 0⟩) :=
  missing_input_before_native ⟨fun _ => false, true, 0, some []⟩
    ⟨fun _ => false, none⟩ "absent.pdf" none 3 rfl rfl

/-- C6: for an existing input path (a real filesystem path carries no
NUL byte), a page number of exactly `i32::MAX` passes the local range
check and reaches the native entry point, while `i32::MAX + 1` fails
with the overflow error before any native invocation. -/
theorem page_number_boundary :
    ∀ (env : PageEnv) (path : String),
      env.fsExists path = true → hasNulByte path = false →
      (extract_page_json env path 2147483647).2.nativeCalls = 1
    ∧ extract_page_json env path 2147483648
        = (Except.error PdfError.PageNumberOverflow, ⟨0, 0⟩) := by
  intro env path hex hnul
  have h1 : ¬(env.fsExists path = false) := by simp [hex]
  have h3 : path_to_cstring path = Except.ok path := by
    simp [path_to_cstring, hnul]
  constructor
  · unfold extract_page_json
    rw [if_neg h1, if_neg (by omega : ¬((2147483647 : ℕ) > 2147483647)), h3]
    rcases env.nativeResult with _ | buf
    · rfl
    · show (consumeNativeBuffer buf).2.nativeCalls = 1
      unfold consumeNativeBuffer
      rcases utf8Decode (buf.takeWhile (fun b => b ≠ 0)) with _ | cs <;> rfl
  · unfold extract_page_json
    rw [if_neg h1, if_pos (by omega : (2147483648 : ℕ) > 2147483647)]

/-- C6 witness: a concrete environment at and one past the boundary. -/
theorem page_number_boundary_witness :
    (extract_page_json ⟨fun _ => true, none⟩ "doc.pdf" 2147483647).2.nativeCalls = 1
      ∧ extract_page_json ⟨fun _ => true, none⟩ "doc.pdf" 2147483648
        = (Except.error PdfError.PageNumberOverflow, ⟨0, 0⟩) :=
  page_number_boundary ⟨fun _ => true, none⟩ "doc.pdf" rfl (by decide)

/-- C7: when the native single-page entry point returns the null
sentinel, the call fails with the payload-free `NullResult` kind —
distinct from the numeric-code kind `CError` — and the native release
function is never invoked (the trace records one native call and zero
frees). -/
theorem engine_null_result :
    ∀ (env : PageEnv) (path : String) (pn : ℕ),
      env.fsExists path = true → hasNulByte path = false → pn ≤ 2147483647 →
      env.nativeResult = none →
      extract_page_json env path pn = (Except.error PdfError.NullResult, ⟨1, 0⟩)
    ∧ ∀ c : Int, PdfError.NullResult ≠ PdfError.CError c := by
  intro env path pn hex hnul hpn hnull
  have h1 : ¬(env.fsExists path = false) := by simp [hex]
  have h3 : path_to_cstring path = Except.ok path := by
    simp [path_to_cstring, hnul]
  constructor
  · unfold extract_page_json
    rw [if_neg h1, if_neg (by omega : ¬(pn > 2147483647)), h3, hnull]
  · intro c h
    exact PdfError.noConfusion h

/-- C7 witness: a concrete null-returning environment. -/
theorem engine_null_result_witness :
    extract_page_json ⟨fun _ => true, none⟩ "doc.pdf" 3
      = (Except.error PdfError.NullResult, ⟨1, 0⟩) :=
  (engine_null_result ⟨fun _ => true, none⟩ "doc.pdf" 3 rfl (by decide)
    (by omega) rfl).1

/-! ### C8: artifact discovery and ordering -/

theorem charListLe_cons_iff {a b : Char} {as bs : List Char} :
    charListLe (a :: as) (b :: bs) = true ↔
      a.toNat < b.toNat ∨ (a.toNat = b.toNat ∧ charListLe as bs = true) := by
  by_cases h1 : a.toNat < b.toNat
  · simp [charListLe, h1]
  · by_cases h2 : b.toNat < a.toNat
    · simp only [charListLe, if_neg h1, if_pos h2]
      constructor
      · intro h
        exact absurd h (by simp)
      · intro h
        omega
    · have h3 : a.toNat = b.toNat := by omega
      simp [charListLe, h1, h2, h3]

theorem charListLe_total : ∀ as bs : List Char,
    charListLe as bs = true ∨ charListLe bs as = true := by
  intro as
  induction as with
  | nil => intro bs; left; rfl
  | cons a as ih =>
    intro bs
    cases bs with
    | nil => right; rfl
    | cons b bs =>
      rcases Nat.lt_trichotomy a.toNat b.toNat with h | h | h
      · left
        exact charListLe_cons_iff.mpr (Or.inl h)
      · rcases ih bs with hle | hle
        · left
          exact charListLe_cons_iff.mpr (Or.inr ⟨h, hle⟩)
        · right
          exact charListLe_cons_iff.mpr (Or.inr ⟨h.symm, hle⟩)
      · right
        exact charListLe_cons_iff.mpr (Or.inl h)

theorem charListLe_trans : ∀ as bs cs : List Char,
    charListLe as bs = true → charListLe bs cs = true →
    charListLe as cs = true := by
  intro as
  induction as with
  | nil => intro bs cs h1 h2; rfl
  | cons a as ih =>
    intro bs cs h1 h2
    cases bs with
    | nil => simp [charListLe] at h1
    | cons b bs =>
      cases cs with
      | nil => simp [charListLe] at h2
      | cons c cs =>
        rw [charListLe_cons_iff] at h1 h2 ⊢
        rcases h1 with h1 | ⟨h1e, h1r⟩ <;> rcases h2 with h2 | ⟨h2e, h2r⟩
        · exact Or.inl (by omega)
        · exact Or.inl (by omega)
        · exact Or.inl (by omega)
        · exact Or.inr ⟨by omega, ih bs cs h1r h2r⟩

instance : IsTrans String pathLe where
  trans a b c h1 h2 := charListLe_trans a.toList b.toList c.toList h1 h2

instance : IsTotal String pathLe where
  total a b := charListLe_total a.toList b.toList

/-- The filter of `gather_json_files` holds exactly when the path has
extension json and its file name starts with the artifact name
prefix. -/
theorem isJsonPageArtifact_iff {p : String} :
    isJsonPageArtifact p = true ↔
      rustExtension p = some "json"
      ∧ ∃ fn, rustFileName p = some fn ∧ strStartsWith fn "page_" = true := by
  unfold isJsonPageArtifact
  cases he : rustExtension p <;> cases hf : rustFileName p <;> simp [he, hf]

/-- C8: artifact discovery keeps exactly the entries whose file name has
extension json and starts with the artifact prefix, returns them sorted
lexicographically, and on the concrete listing page_2, page_10, page_1
yields the lexicographic order page_1, page_10, page_2. -/
theorem gather_json_files_spec :
    ∀ (dir : String) (names : List String),
      (∀ p, p ∈ gather_json_files dir names ↔
          ∃ n ∈ names, p = joinPath dir n
            ∧ rustExtension p = some "json"
            ∧ ∃ fn, rustFileName p = some fn ∧ strStartsWith fn "page_" = true)
    ∧ List.Sorted pathLe (gather_json_files dir names)
    ∧ gather_json_files "out" ["page_2.json", "page_10.json", "page_1.json"]
        = ["out/page_1.json", "out/page_10.json", "out/page_2.json"] := by
  intro dir names
  refine ⟨?_, List.sorted_insertionSort pathLe _, by decide⟩
  intro p
  unfold gather_json_files
  rw [(List.perm_insertionSort pathLe _).mem_iff]
  simp only [List.mem_filter, List.mem_map]
  constructor
  · rintro ⟨⟨n, hn, rfl⟩, hf⟩
    obtain ⟨hext, hfn⟩ := isJsonPageArtifact_iff.mp hf
    exact ⟨n, hn, rfl, hext, hfn⟩
  · rintro ⟨n, hn, rfl, hext, hfn⟩
    exact ⟨⟨n, hn, rfl⟩, isJsonPageArtifact_iff.mpr ⟨hext, hfn⟩⟩

/-! ### C9: all-or-nothing aggregation -/

/-- A successful `exceptMapM` run is a pointwise success, one output per
input in order. -/
theorem exceptMapM_ok_forall₂ {ε α β : Type} {f : α → Except ε β} :
    ∀ {xs : List α} {ys : List β},
      exceptMapM f xs = Except.ok ys ↔
        List.Forall₂ (fun x y => f x = Except.ok y) xs ys := by
  intro xs
  induction xs with
  | nil =>
    intro ys
    simp [exceptMapM, List.forall₂_nil_left_iff, eq_comm]
  | cons x xs ih =>
    intro ys
    constructor
    · intro h
      simp only [exceptMapM, except_bind_ok, except_pure_ok] at h
      obtain ⟨y, hy, ys', hys', rfl⟩ := h
      exact List.Forall₂.cons hy (ih.mp hys')
    · intro h
      cases h with
      | cons hy hys =>
        simp only [exceptMapM, except_bind_ok, except_pure_ok]
        exact ⟨_, hy, _, ih.mpr hys, rfl⟩

/-- When some element of the input fails, `exceptMapM` fails with the
error of a failing element. -/
theorem exceptMapM_error_of_mem {ε α β : Type} {f : α → Except ε β} :
    ∀ {xs : List α}, (∃ x ∈ xs, (f x).isOk = false) →
      ∃ e x, x ∈ xs ∧ f x = Except.error e ∧ exceptMapM f xs = Except.error e := by
  intro xs
  induction xs with
  | nil =>
    rintro ⟨x, hx, -⟩
    exact absurd hx (List.not_mem_nil x)
  | cons x xs ih =>
    rintro ⟨z, hz, hfz⟩
    cases hfx : f x with
    | error e =>
      refine ⟨e, x, List.mem_cons_self x xs, hfx, ?_⟩
      simp [exceptMapM, hfx, except_error_bind]
    | ok y =>
      have hzx : z ≠ x := by
        intro h
        rw [h, hfx] at hfz
        simp [Except.isOk, Except.toBool] at hfz
      have hz' : z ∈ xs := by
        rcases List.mem_cons.mp hz with h | h
        · exact absurd h hzx
        · exact h
      obtain ⟨e, w, hw, hfw, hmap⟩ := ih ⟨z, hz', hfz⟩
      refine ⟨e, w, List.mem_cons_of_mem x hw, hfw, ?_⟩
      simp [exceptMapM, hfx, except_ok_bind, hmap, except_error_bind]

/-- C9: once `to_json` has produced the sorted artifact list, a failure
to read or deserialize any one artifact makes the whole `to_json_collect`
call fail with the error of that artifact — no incomplete collection is ever
returned — and a success carries exactly one block sequence per
artifact, aligned with the artifact order. -/
theorem to_json_collect_all_or_nothing :
    ∀ (env : CollectEnv) (pdf : String) (out : Option String)
      (files : List String),
      (to_json env.doc pdf out).1 = Except.ok files →
      ((∃ f ∈ files, (readPageBlocks env f).isOk = false) →
          ∃ e f, f ∈ files ∧ readPageBlocks env f = Except.error e
            ∧ (to_json_collect env pdf out).1 = Except.error e)
    ∧ (∀ pages, (to_json_collect env pdf out).1 = Except.ok pages →
          List.Forall₂ (fun f p => readPageBlocks env f = Except.ok p) files pages) := by
  intro env pdf out files hto
  have hpair : to_json env.doc pdf out
      = (Except.ok files, (to_json env.doc pdf out).2) := by
    rw [← hto]
  constructor
  · intro hex
    obtain ⟨e, f, hf, hferr, hmap⟩ := exceptMapM_error_of_mem hex
    refine ⟨e, f, hf, hferr, ?_⟩
    unfold to_json_collect
    rw [hpair]
    simp [hmap]
  · intro pages hok
    unfold to_json_collect at hok
    rw [hpair] at hok
    cases hm : exceptMapM (readPageBlocks env) files with
    | error e => simp [hm] at hok
    | ok ps =>
      simp [hm] at hok
      subst hok
      exact exceptMapM_ok_forall₂.mp hm

/-- Environment for the C9 witness: one discovered artifact whose text
fails to parse. -/
def c9Env : CollectEnv :=
  ⟨⟨fun _ => true, true, 0, some ["page_1.json"]⟩,
   fun _ => some "junk", fun _ => .error "expected value"⟩

/-- C9 witness: the single bad artifact aborts the aggregation with its
own error. -/
theorem to_json_collect_all_or_nothing_witness :
    ∃ e f, f ∈ ["out/page_1.json"] ∧ readPageBlocks c9Env f = Except.error e
      ∧ (to_json_collect c9Env "doc.pdf" (some "out")).1 = Except.error e :=
  (to_json_collect_all_or_nothing c9Env "doc.pdf" (some "out") ["out/page_1.json"]
    (by rfl)).1 ⟨"out/page_1.json", by decide, by decide⟩

end Pdf
